import Mathlib

/-
Verification development for the hospital resource-allocation repository.

Shallow embedding conventions:
- Calendar dates are embedded as ordinal day numbers (`Nat`); the source
  stores ISO date strings and converts with strptime/strftime, and adding a
  `timedelta(days = k)` corresponds to `+ k` on the ordinal number.
- Times of day are kept as strings (`"09:00"`), exactly as the source
  compares them; `_time_to_minutes` is embedded by `time_to_minutes`.
- Python floats for money are embedded as rationals.
- Python dicts keyed by id are embedded as association lists in insertion
  order; Python `min` over a list is embedded by `py_min_aux`, which keeps
  the first element attaining the minimal key, exactly as CPython does.
- Free-text human-readable messages carried by result dicts are dropped;
  each result constructor keeps the status discriminator and the structured
  payload fields.
-/

/-! ## Allocation system: data model (src/allocation_system/models.py) -/

/-- Appointment lifecycle status (`AppointmentStatus` in models.py). -/
inductive AppointmentStatus where
  | scheduled
  | cancelled
  | completed
deriving DecidableEq

/-- `Doctor` dataclass; `available_days` holds ordinal day numbers. -/
structure Doctor where
  id : String
  name : String
  specialty : String
  available_days : List Nat
  available_hours : List String
deriving DecidableEq

/-- `Appointment` dataclass. -/
structure Appointment where
  id : String
  patient_id : String
  doctor_id : String
  date : Nat
  time : String
  status : AppointmentStatus
  notes : Option String := none
deriving DecidableEq

/-- `HospitalDataManager`: the appointment store and its id counter. -/
structure HospitalDB where
  appointments : List Appointment
  appointment_counter : Nat
deriving DecidableEq

/-- Zero-padded id: Python `f"APT{counter:04d}"`. -/
def format_apt_id (n : Nat) : String :=
  "APT" ++ (if n < 10 then "000" else if n < 100 then "00" else if n < 1000 then "0" else "")
    ++ toString n

/-- `HospitalDataManager.add_appointment`: assign the next id, append, bump the counter. -/
def add_appointment (db : HospitalDB) (apt : Appointment) : HospitalDB × String :=
  let new_id := format_apt_id db.appointment_counter
  (⟨db.appointments ++ [{ apt with id := new_id }], db.appointment_counter + 1⟩, new_id)

/-- `HospitalDataManager.update_appointment_status`: set the status of the first
appointment with the given id; the boolean reports whether one was found. -/
def update_appointment_status (apts : List Appointment) (appointment_id : String)
    (status : AppointmentStatus) : List Appointment × Bool :=
  match apts with
  | [] => ([], false)
  | a :: rest =>
    if a.id = appointment_id then ({ a with status := status } :: rest, true)
    else
      let (rest', ok) := update_appointment_status rest appointment_id status
      (a :: rest', ok)

/-! ## Booking tool (src/allocation_system/tools/booking_tool.py) -/

/-- Split a character list at every `:` (the behaviour of Python
`time_str.split(":")` on the string's characters). -/
def split_colon_aux (acc : List Char) : List Char → List (List Char)
  | [] => [acc.reverse]
  | c :: cs =>
    if c = ':' then acc.reverse :: split_colon_aux [] cs
    else split_colon_aux (c :: acc) cs

/-- Value of a digit string (reads `"09"` as 9, like Python `int`). -/
def digits_val (cs : List Char) : Nat :=
  cs.foldl (fun n c => n * 10 + (c.toNat - 48)) 0

/-- Python `int(s)` restricted to the non-negative digit strings that occur in
time fields; anything else fails (is parsed as `none`). -/
def parse_nat (cs : List Char) : Option Nat :=
  if cs.isEmpty then none
  else if cs.all (·.isDigit) then some (digits_val cs) else none

/-- `AutomatedBookingTool._time_to_minutes`: split `"HH:MM"` on `:`, map both
parts through `int`, and return hours·60+minutes; any parse failure (wrong
number of parts or a non-numeric part) yields 0 via the `except` clause. -/
def time_to_minutes (time_str : String) : Nat :=
  match split_colon_aux [] time_str.data with
  | [h, m] =>
    match parse_nat h, parse_nat m with
    | some hh, some mm => hh * 60 + mm
    | _, _ => 0
  | _ => 0

/-- Times already booked for a doctor on a date: the `booked_times` list
comprehensions filtering SCHEDULED appointments. -/
def booked_times (apts : List Appointment) (doctor_id : String) (date : Nat) : List String :=
  (apts.filter (fun a => a.doctor_id == doctor_id && a.date == date
      && a.status == AppointmentStatus.scheduled)).map (·.time)

/-- Free hours of a doctor on a date: `available_times = [t for t in
doctor.available_hours if t not in booked_times]`. -/
def available_times (apts : List Appointment) (doctor : Doctor) (doctor_id : String)
    (date : Nat) : List String :=
  doctor.available_hours.filter (fun t => !(booked_times apts doctor_id date).contains t)

/-- The conflict lookup: first SCHEDULED appointment at the exact
(doctor, date, time) triple (`next((apt for apt in ...), None)`). -/
def find_conflict (apts : List Appointment) (doctor_id : String) (date : Nat)
    (time : String) : Option Appointment :=
  apts.find? (fun a => a.doctor_id == doctor_id && a.date == date
      && a.time == time && a.status == AppointmentStatus.scheduled)

/-- CPython `min(best :: l, key)`: fold keeping the current best, replacing it
only on a strictly smaller key, so the first minimum wins. -/
def py_min_aux (key : String → Nat) (best : String) : List String → String
  | [] => best
  | y :: ys => py_min_aux key (if key y < key best then y else best) ys

/-- Outcome of `_handle_booking_conflicts` (the `status` discriminator plus the
structured payload of the returned dict). -/
inductive ConflictOutcome where
  | noConflict
  | conflict (alternative_times_same_day : List String)
  | rescheduled (new_date : Nat) (new_time : String)
  | noAlternatives
deriving DecidableEq

/-- The forward-day loop of `_handle_booking_conflicts`:
`for days_ahead in range(1, 8)` over the offsets in `ks`; a day is considered
only if it is in the doctor's `available_days`; on the first day with a free
hour the original time is kept if free, else the first free hour is taken;
exhaustion yields the `no_alternatives` status. -/
def search_future_days (apts : List Appointment) (doctor : Doctor) (doctor_id : String)
    (time : String) (date : Nat) : List Nat → ConflictOutcome
  | [] => .noAlternatives
  | k :: ks =>
    let check_date := date + k
    if check_date ∈ doctor.available_days then
      match available_times apts doctor doctor_id check_date with
      | [] => search_future_days apts doctor doctor_id time date ks
      | t :: ts =>
        .rescheduled check_date (if (t :: ts).contains time then time else t)
    else search_future_days apts doctor doctor_id time date ks

/-- `AutomatedBookingTool._handle_booking_conflicts`: no existing SCHEDULED
appointment at the slot means no conflict; otherwise without auto-reschedule
the same-day free hours are returned as alternatives; with auto-reschedule the
free hour closest in minutes to the requested time is chosen (Python `min`
with an absolute-difference key), falling back to the 7-day forward search. -/
def handle_booking_conflicts (apts : List Appointment) (doctor : Doctor)
    (doctor_id : String) (date : Nat) (time : String) (auto_reschedule : Bool) :
    ConflictOutcome :=
  match find_conflict apts doctor_id date time with
  | none => .noConflict
  | some _ =>
    if auto_reschedule then
      match available_times apts doctor doctor_id date with
      | [] => search_future_days apts doctor doctor_id time date (List.range' 1 7)
      | t :: ts =>
        .rescheduled date (py_min_aux
          (fun u => Int.natAbs ((time_to_minutes u : Int) - (time_to_minutes time : Int)))
          t ts)
    else .conflict (available_times apts doctor doctor_id date)

/-- Outcome of the conflict/commit stage of `AutomatedBookingTool.execute`. -/
inductive BookingOutcome where
  | conflictReturned (alternative_times_same_day : List String)
  | success (appointment_id : String) (date : Nat) (time : String)
deriving DecidableEq

/-- The conflict-handling and commit stage of `AutomatedBookingTool.execute`
(after auto-completion and validation have succeeded): the conflict result is
returned to the caller only when its status is `conflict` and auto-reschedule
is off; a `rescheduled` result overrides the final date and time; every other
status (including `no_alternatives`) falls through to the commit, which
appends a new SCHEDULED appointment. -/
def execute_booking (db : HospitalDB) (doctor : Doctor) (doctor_id patient_id : String)
    (date : Nat) (time : String) (auto_reschedule : Bool) (notes : Option String) :
    HospitalDB × BookingOutcome :=
  let conflict_result := handle_booking_conflicts db.appointments doctor doctor_id date time
    auto_reschedule
  match conflict_result, auto_reschedule with
  | .conflict alts, false => (db, .conflictReturned alts)
  | _, _ =>
    let final := match conflict_result with
      | .rescheduled d t => (d, t)
      | _ => (date, time)
    let apt : Appointment :=
      { id := "", patient_id := patient_id, doctor_id := doctor_id,
        date := final.1, time := final.2, status := .scheduled, notes := notes }
    let (db', apt_id) := add_appointment db apt
    (db', .success apt_id final.1 final.2)

/-- All SCHEDULED appointments at a (doctor, date, time) triple. -/
def scheduled_at (apts : List Appointment) (doctor_id : String) (date : Nat)
    (time : String) : List Appointment :=
  apts.filter (fun a => a.doctor_id == doctor_id && a.date == date
      && a.time == time && a.status == AppointmentStatus.scheduled)

/-- A doctor with a single working hour on a single day, used as the C1
failing input: the only slot is already booked and no later day is available. -/
def c1_doctor : Doctor :=
  { id := "dr_x", name := "Dr. X", specialty := "Cardiology",
    available_days := [10], available_hours := ["09:00"] }

/-- The appointment already occupying dr_x's only slot. -/
def c1_apt : Appointment :=
  { id := "APT0001", patient_id := "P1", doctor_id := "dr_x",
    date := 10, time := "09:00", status := .scheduled }

/-- Store already holding the one possible appointment for `c1_doctor`. -/
def c1_db : HospitalDB :=
  { appointments := [c1_apt], appointment_counter := 2 }

/-- C1. Booking the already-taken slot (dr_x, day 10, 09:00) with
`auto_reschedule = true` when no alternative exists in the next 7 days: the
conflict handler reports `no_alternatives`, but `execute` falls through and
commits anyway, leaving two SCHEDULED appointments at the same
(doctor, date, time) triple — the no-double-booking invariant is violated. -/
theorem booking_commits_despite_conflict :
    handle_booking_conflicts c1_db.appointments c1_doctor "dr_x" 10 "09:00" true
        = ConflictOutcome.noAlternatives
      ∧ (execute_booking c1_db c1_doctor "dr_x" "P2" 10 "09:00" true none).2
        = BookingOutcome.success "APT0002" 10 "09:00"
      ∧ (scheduled_at (execute_booking c1_db c1_doctor "dr_x" "P2" 10 "09:00" true none).1.appointments
          "dr_x" 10 "09:00").length = 2 := by
  refine ⟨by decide, by decide, by decide⟩

/-! ## C3/C4: the auto-reschedule nearest-time search -/

/-- Doctor used for the reschedule-proximity example: working hours containing
09:00, 10:00, 11:00 and 15:00 on day 7. -/
def c3_doctor : Doctor :=
  { id := "dr_y", name := "Dr. Y", specialty := "Cardiology",
    available_days := [7], available_hours := ["09:00", "10:00", "11:00", "15:00"] }

/-- The booking occupying 10:00 on day 7, so the free hours are exactly
09:00, 11:00 and 15:00. -/
def c3_apt : Appointment :=
  { id := "APT0001", patient_id := "P1", doctor_id := "dr_y",
    date := 7, time := "10:00", status := .scheduled }

/-- Store for the reschedule-proximity example. -/
def c3_db : HospitalDB :=
  { appointments := [c3_apt], appointment_counter := 2 }

/-- C3, counterexample. With free hours {09:00, 11:00, 15:00} and a
conflicting request at 10:00 with auto-reschedule, the engine commits 09:00
(09:00 and 11:00 are both 60 minutes away and Python `min` keeps the first,
i.e. chronologically earliest, minimiser), not 11:00 as the claim states. -/
theorem reschedule_tie_commits_0900 :
    handle_booking_conflicts c3_db.appointments c3_doctor "dr_y" 7 "10:00" true
        = ConflictOutcome.rescheduled 7 "09:00"
      ∧ handle_booking_conflicts c3_db.appointments c3_doctor "dr_y" 7 "10:00" true
        ≠ ConflictOutcome.rescheduled 7 "11:00"
      ∧ (execute_booking c3_db c3_doctor "dr_y" "P9" 7 "10:00" true none).2
        = BookingOutcome.success "APT0002" 7 "09:00" := by
  refine ⟨by decide, by decide, by decide⟩

/-- `py_min_aux key best l` is the first minimiser of `key` in `best :: l`:
the list splits around the result, everything before it has a strictly larger
key and everything after it a larger-or-equal key. -/
theorem py_min_aux_split (key : String → Nat) :
    ∀ (l : List String) (best : String),
      ∃ l₁ l₂, best :: l = l₁ ++ (py_min_aux key best l) :: l₂
        ∧ (∀ u ∈ l₁, key (py_min_aux key best l) < key u)
        ∧ (∀ u ∈ l₂, key (py_min_aux key best l) ≤ key u) := by
  intro l
  induction l with
  | nil =>
    intro best
    refine ⟨[], [], ?_, ?_, ?_⟩ <;> simp [py_min_aux]
  | cons y ys ih =>
    intro best
    rcases Nat.lt_or_ge (key y) (key best) with hy | hy
    · have hres : py_min_aux key best (y :: ys) = py_min_aux key y ys := by
        simp [py_min_aux, hy]
      obtain ⟨l₁, l₂, heq, hlt, hle⟩ := ih y
      have hm_le_y : key (py_min_aux key y ys) ≤ key y := by
        cases l₁ with
        | nil =>
          simp only [List.nil_append] at heq
          injection heq with h1 h2
          rw [← h1]
        | cons a l₁' =>
          rw [List.cons_append] at heq
          injection heq with h1 h2
          have := hlt a (by simp)
          rw [← h1] at this
          exact Nat.le_of_lt this
      refine ⟨best :: l₁, l₂, ?_, ?_, ?_⟩
      · rw [hres, List.cons_append]
        exact congrArg (best :: ·) heq
      · intro u hu
        rw [hres]
        rcases List.mem_cons.mp hu with rfl | hu
        · exact Nat.lt_of_le_of_lt hm_le_y hy
        · exact hlt u hu
      · intro u hu
        rw [hres]
        exact hle u hu
    · have hres : py_min_aux key best (y :: ys) = py_min_aux key best ys := by
        simp [py_min_aux, Nat.not_lt.mpr hy]
      obtain ⟨l₁, l₂, heq, hlt, hle⟩ := ih best
      cases l₁ with
      | nil =>
        simp only [List.nil_append] at heq
        injection heq with hbm hyl
        refine ⟨[], y :: ys, ?_, ?_, ?_⟩
        · rw [hres, ← hbm]
          rfl
        · simp
        · intro u hu
          rw [hres, ← hbm]
          rcases List.mem_cons.mp hu with rfl | hu
          · exact hy
          · have := hle u (hyl ▸ hu)
            rw [← hbm] at this
            exact this
      | cons a l₁' =>
        rw [List.cons_append] at heq
        injection heq with hba htail
        have hm_lt : key (py_min_aux key best ys) < key best := by
          have := hlt a (by simp)
          rw [← hba] at this
          exact this
        refine ⟨best :: y :: l₁', l₂, ?_, ?_, ?_⟩
        · rw [hres]
          conv_lhs => rw [htail]
          simp
        · intro u hu
          rw [hres]
          rcases List.mem_cons.mp hu with rfl | hu
          · exact hm_lt
          · rcases List.mem_cons.mp hu with rfl | hu
            · exact Nat.lt_of_lt_of_le hm_lt hy
            · exact hlt u (by simp [hu])
        · intro u hu
          rw [hres]
          exact hle u hu

/-- Membership and minimality of `py_min_aux` over the whole list. -/
theorem py_min_aux_min (key : String → Nat) (l : List String) (best : String) :
    py_min_aux key best l ∈ best :: l
      ∧ ∀ u ∈ best :: l, key (py_min_aux key best l) ≤ key u := by
  obtain ⟨l₁, l₂, heq, hlt, hle⟩ := py_min_aux_split key l best
  constructor
  · rw [heq]
    exact List.mem_append.mpr (Or.inr (by simp))
  · intro u hu
    rw [heq] at hu
    rcases List.mem_append.mp hu with hu | hu
    · exact Nat.le_of_lt (hlt u hu)
    · rcases List.mem_cons.mp hu with rfl | hu
      · exact Nat.le_refl _
      · exact hle u hu

/-- Tie-break: when `best :: l` is sorted by `f`, any element whose key ties
with the minimiser has an `f`-value at least that of the minimiser (the first
minimum is also the `f`-smallest among ties). -/
theorem py_min_aux_tie (key f : String → Nat) (l : List String) (best : String)
    (hsort : (best :: l).Pairwise (fun a b => f a ≤ f b)) :
    ∀ u ∈ best :: l, key u = key (py_min_aux key best l)
      → f (py_min_aux key best l) ≤ f u := by
  obtain ⟨l₁, l₂, heq, hlt, hle⟩ := py_min_aux_split key l best
  intro u hu hku
  rw [heq] at hu hsort
  rcases List.mem_append.mp hu with hu | hu
  · have := hlt u hu
    omega
  · rcases List.mem_cons.mp hu with rfl | hu
    · exact Nat.le_refl _
    · have h2 := (List.pairwise_append.mp hsort).2.1
      exact (List.pairwise_cons.mp h2).1 u hu

/-- C3 (amended). When a reserve request conflicts, auto-reschedule is on and
free hours remain on the requested date, the engine reschedules on the same
date to a free hour whose absolute minute distance to the requested time is
minimal; among equidistant free hours it picks the chronologically earliest
(given the doctor's hour list is chronologically sorted). -/
theorem reschedule_nearest_time (apts : List Appointment) (doctor : Doctor)
    (doctor_id : String) (date : Nat) (time : String)
    (hconf : find_conflict apts doctor_id date time ≠ none)
    (hfree : available_times apts doctor doctor_id date ≠ [])
    (hsort_hours : doctor.available_hours.Pairwise
      (fun a b => time_to_minutes a ≤ time_to_minutes b)) :
    ∃ t, handle_booking_conflicts apts doctor doctor_id date time true
        = ConflictOutcome.rescheduled date t
      ∧ t ∈ available_times apts doctor doctor_id date
      ∧ (∀ u ∈ available_times apts doctor doctor_id date,
          Int.natAbs ((time_to_minutes t : Int) - (time_to_minutes time : Int))
            ≤ Int.natAbs ((time_to_minutes u : Int) - (time_to_minutes time : Int)))
      ∧ (∀ u ∈ available_times apts doctor doctor_id date,
          Int.natAbs ((time_to_minutes u : Int) - (time_to_minutes time : Int))
            = Int.natAbs ((time_to_minutes t : Int) - (time_to_minutes time : Int))
          → time_to_minutes t ≤ time_to_minutes u) := by
  obtain ⟨c, hc⟩ := Option.ne_none_iff_exists'.mp hconf
  obtain ⟨t0, ts, havail⟩ : ∃ t0 ts, available_times apts doctor doctor_id date = t0 :: ts := by
    cases h : available_times apts doctor doctor_id date with
    | nil => exact absurd h hfree
    | cons t0 ts => exact ⟨t0, ts, rfl⟩
  have hresult : handle_booking_conflicts apts doctor doctor_id date time true
      = ConflictOutcome.rescheduled date
          (py_min_aux (fun u => Int.natAbs ((time_to_minutes u : Int)
            - (time_to_minutes time : Int))) t0 ts) := by
    simp [handle_booking_conflicts, hc, havail]
  refine ⟨_, hresult, ?_, ?_, ?_⟩
  · rw [havail]
    exact (py_min_aux_min (fun u => Int.natAbs ((time_to_minutes u : Int)
      - (time_to_minutes time : Int))) ts t0).1
  · intro u hu
    rw [havail] at hu
    exact (py_min_aux_min (fun u => Int.natAbs ((time_to_minutes u : Int)
      - (time_to_minutes time : Int))) ts t0).2 u hu
  · intro u hu hku
    rw [havail] at hu
    have hsort' : (t0 :: ts).Pairwise (fun a b => time_to_minutes a ≤ time_to_minutes b) := by
      rw [← havail]
      exact List.Pairwise.sublist (List.filter_sublist _) hsort_hours
    exact py_min_aux_tie (fun u => Int.natAbs ((time_to_minutes u : Int)
      - (time_to_minutes time : Int))) time_to_minutes ts t0 hsort' u hu hku

/-- Witness for C3 (amended): the {09:00, 11:00, 15:00} example at
concrete inputs. -/
theorem reschedule_nearest_time_witness :
    ∃ t, handle_booking_conflicts c3_db.appointments c3_doctor "dr_y" 7 "10:00" true
        = ConflictOutcome.rescheduled 7 t
      ∧ t ∈ available_times c3_db.appointments c3_doctor "dr_y" 7
      ∧ (∀ u ∈ available_times c3_db.appointments c3_doctor "dr_y" 7,
          Int.natAbs ((time_to_minutes t : Int) - (time_to_minutes "10:00" : Int))
            ≤ Int.natAbs ((time_to_minutes u : Int) - (time_to_minutes "10:00" : Int)))
      ∧ (∀ u ∈ available_times c3_db.appointments c3_doctor "dr_y" 7,
          Int.natAbs ((time_to_minutes u : Int) - (time_to_minutes "10:00" : Int))
            = Int.natAbs ((time_to_minutes t : Int) - (time_to_minutes "10:00" : Int))
          → time_to_minutes t ≤ time_to_minutes u) :=
  reschedule_nearest_time c3_db.appointments c3_doctor "dr_y" 7 "10:00"
    (by decide) (by decide) (by decide)

/-- The forward-day loop returns `no_alternatives` when no offset in `ks`
lands on an available day that still has a free hour. -/
theorem search_days_none (apts : List Appointment) (doctor : Doctor)
    (doctor_id time : String) (date : Nat) (ks : List Nat)
    (h : ∀ k ∈ ks, ¬((date + k) ∈ doctor.available_days
      ∧ available_times apts doctor doctor_id (date + k) ≠ [])) :
    search_future_days apts doctor doctor_id time date ks
      = ConflictOutcome.noAlternatives := by
  induction ks with
  | nil => rfl
  | cons k ks ih =>
    by_cases hmem : (date + k) ∈ doctor.available_days
    · cases havail : available_times apts doctor doctor_id (date + k) with
      | nil =>
        simp only [search_future_days, if_pos hmem, havail]
        exact ih (fun k' hk' => h k' (by simp [hk']))
      | cons t ts => exact absurd ⟨hmem, by simp [havail]⟩ (h k (by simp))
    · simp only [search_future_days, if_neg hmem]
      exact ih (fun k' hk' => h k' (by simp [hk']))

/-- The forward-day loop stops at the first offset (in list order) landing on
an available day with a free hour, keeping the requested time when it is free
there and the chronologically earliest free hour otherwise. -/
theorem search_days_first (apts : List Appointment) (doctor : Doctor)
    (doctor_id time : String) (date : Nat) (ks : List Nat) (k₀ : Nat)
    (hsort_hours : doctor.available_hours.Pairwise
      (fun a b => time_to_minutes a ≤ time_to_minutes b))
    (hmem : k₀ ∈ ks)
    (hmin : ∀ k ∈ ks, k < k₀ → ¬((date + k) ∈ doctor.available_days
      ∧ available_times apts doctor doctor_id (date + k) ≠ []))
    (hsorted : ks.Pairwise (· < ·))
    (hday : (date + k₀) ∈ doctor.available_days)
    (hfree : available_times apts doctor doctor_id (date + k₀) ≠ []) :
    ∃ t, search_future_days apts doctor doctor_id time date ks
        = ConflictOutcome.rescheduled (date + k₀) t
      ∧ t ∈ available_times apts doctor doctor_id (date + k₀)
      ∧ (time ∈ available_times apts doctor doctor_id (date + k₀) → t = time)
      ∧ (time ∉ available_times apts doctor doctor_id (date + k₀) →
          ∀ u ∈ available_times apts doctor doctor_id (date + k₀),
            time_to_minutes t ≤ time_to_minutes u) := by
  revert hmem hmin hsorted
  induction ks with
  | nil =>
    intro hmem _ _
    simp at hmem
  | cons k ks ih =>
    intro hmem hmin hsorted
    rcases List.mem_cons.mp hmem with rfl | hmem'
    · obtain ⟨t0, ts, havail⟩ :
          ∃ t0 ts, available_times apts doctor doctor_id (date + k₀) = t0 :: ts := by
        cases h : available_times apts doctor doctor_id (date + k₀) with
        | nil => exact absurd h hfree
        | cons t0 ts => exact ⟨t0, ts, rfl⟩
      have hred : search_future_days apts doctor doctor_id time date (k₀ :: ks)
          = ConflictOutcome.rescheduled (date + k₀)
              (if (t0 :: ts).contains time then time else t0) := by
        simp only [search_future_days, if_pos hday, havail]
      by_cases hcont : time ∈ (t0 :: ts)
      · have hcb : (t0 :: ts).contains time = true := List.elem_eq_true_of_mem hcont
        refine ⟨time, ?_, ?_, ?_, ?_⟩
        · rw [hred, if_pos hcb]
        · rw [havail]; exact hcont
        · intro _; rfl
        · intro hnot
          exact absurd (havail ▸ hcont) hnot
      · have hcb : (t0 :: ts).contains time = false := by simp [hcont]
        refine ⟨t0, ?_, ?_, ?_, ?_⟩
        · rw [hred, hcb]
          simp
        · rw [havail]; simp
        · intro htime
          rw [havail] at htime
          exact absurd htime hcont
        · intro _ u hu
          rw [havail] at hu
          have hsort' : (t0 :: ts).Pairwise
              (fun a b => time_to_minutes a ≤ time_to_minutes b) := by
            rw [← havail]
            exact List.Pairwise.sublist (List.filter_sublist _) hsort_hours
          rcases List.mem_cons.mp hu with rfl | hu
          · exact Nat.le_refl _
          · exact (List.pairwise_cons.mp hsort').1 u hu
    · have hk_lt : k < k₀ := (List.pairwise_cons.mp hsorted).1 k₀ hmem'
      have hnotok := hmin k (by simp) hk_lt
      have ihres := ih hmem' (fun k' hk' hlt => hmin k' (by simp [hk']) hlt)
        (List.pairwise_cons.mp hsorted).2
      by_cases hmemd : (date + k) ∈ doctor.available_days
      · cases havail : available_times apts doctor doctor_id (date + k) with
        | nil =>
          simpa only [search_future_days, if_pos hmemd, havail] using ihres
        | cons t ts => exact absurd ⟨hmemd, by simp [havail]⟩ hnotok
      · simpa only [search_future_days, if_neg hmemd] using ihres

/-- C4. When the requested date has no free hour left, a conflicting
auto-reschedule request scans offsets 1..7 from the requested date in
chronological order, skipping days not in the doctor's available-days list:
if no scanned day has a free hour the result is the `no_alternatives` status,
and on the first scanned day with a free hour the engine keeps the exact
requested time when free there, else takes the chronologically earliest free
hour of that day (the doctor's hour list being chronologically sorted). -/
theorem forward_day_search_order (apts : List Appointment) (doctor : Doctor)
    (doctor_id : String) (date : Nat) (time : String)
    (hconf : find_conflict apts doctor_id date time ≠ none)
    (hnone : available_times apts doctor doctor_id date = [])
    (hsort_hours : doctor.available_hours.Pairwise
      (fun a b => time_to_minutes a ≤ time_to_minutes b)) :
    ((∀ k, 1 ≤ k → k ≤ 7 → ¬((date + k) ∈ doctor.available_days
        ∧ available_times apts doctor doctor_id (date + k) ≠ []))
      → handle_booking_conflicts apts doctor doctor_id date time true
          = ConflictOutcome.noAlternatives)
    ∧ ∀ k₀, 1 ≤ k₀ → k₀ ≤ 7
        → (date + k₀) ∈ doctor.available_days
        → available_times apts doctor doctor_id (date + k₀) ≠ []
        → (∀ k, 1 ≤ k → k < k₀ → ¬((date + k) ∈ doctor.available_days
            ∧ available_times apts doctor doctor_id (date + k) ≠ []))
        → ∃ t, handle_booking_conflicts apts doctor doctor_id date time true
              = ConflictOutcome.rescheduled (date + k₀) t
            ∧ t ∈ available_times apts doctor doctor_id (date + k₀)
            ∧ (time ∈ available_times apts doctor doctor_id (date + k₀) → t = time)
            ∧ (time ∉ available_times apts doctor doctor_id (date + k₀) →
                ∀ u ∈ available_times apts doctor doctor_id (date + k₀),
                  time_to_minutes t ≤ time_to_minutes u) := by
  obtain ⟨c, hc⟩ := Option.ne_none_iff_exists'.mp hconf
  have hred : handle_booking_conflicts apts doctor doctor_id date time true
      = search_future_days apts doctor doctor_id time date (List.range' 1 7) := by
    simp [handle_booking_conflicts, hc, hnone]
  constructor
  · intro h
    rw [hred]
    apply search_days_none
    intro k hk
    have hb := List.mem_range'_1.mp hk
    exact h k hb.1 (by omega)
  · intro k₀ h1 h7 hday hfree hmin
    rw [hred]
    exact search_days_first apts doctor doctor_id time date (List.range' 1 7) k₀
      hsort_hours (List.mem_range'_1.mpr ⟨h1, by omega⟩)
      (fun k hk hlt => hmin k (List.mem_range'_1.mp hk).1 hlt)
      (by decide) hday hfree

/-- Doctor for the forward-day-search witness: days 20 and 23 only. -/
def c4_doctor : Doctor :=
  { id := "dr_z", name := "Dr. Z", specialty := "Neurology",
    available_days := [20, 23], available_hours := ["09:00", "10:00"] }

/-- Both of dr_z's hours on day 20 are booked. -/
def c4_apts : List Appointment :=
  [{ id := "APT0001", patient_id := "P1", doctor_id := "dr_z",
     date := 20, time := "09:00", status := .scheduled },
   { id := "APT0002", patient_id := "P2", doctor_id := "dr_z",
     date := 20, time := "10:00", status := .scheduled }]

/-- Witness for C4: with day 20 fully booked and days 21, 22 not in the
available-days list, the forward search lands on day 23 (offset 3) and keeps
the originally requested time 09:00, which is free there. -/
theorem forward_day_search_order_witness :
    ∃ t, handle_booking_conflicts c4_apts c4_doctor "dr_z" 20 "09:00" true
        = ConflictOutcome.rescheduled 23 t
      ∧ t ∈ available_times c4_apts c4_doctor "dr_z" 23
      ∧ ("09:00" ∈ available_times c4_apts c4_doctor "dr_z" 23 → t = "09:00")
      ∧ ("09:00" ∉ available_times c4_apts c4_doctor "dr_z" 23 →
          ∀ u ∈ available_times c4_apts c4_doctor "dr_z" 23,
            time_to_minutes t ≤ time_to_minutes u) :=
  (forward_day_search_order c4_apts c4_doctor "dr_z" 20 "09:00"
      (by decide) (by decide) (by decide)).2 3 (by decide) (by decide)
    (by decide) (by decide)
    (by intro k hk1 hk3; interval_cases k <;> decide)

/-! ## Cancellation tool (src/allocation_system/tools/cancellation_tool.py) -/

/-- Upper-case a string character by character (Python `str.upper` on the
ASCII appointment ids involved). -/
def str_upper (s : String) : String :=
  String.mk (s.data.map Char.toUpper)

/-- Contiguous-sublist test on character lists. -/
def list_is_infix (sub : List Char) : List Char → Bool
  | [] => sub.isEmpty
  | c :: cs => sub.isPrefixOf (c :: cs) || list_is_infix sub cs

/-- Python substring containment `sub in s`. -/
def str_contains (s sub : String) : Bool :=
  list_is_infix sub.data s.data

/-- Outcome of the appointment-id branch of `SmartCancellationTool.execute`
(status discriminator plus structured payload; free-text messages omitted). -/
inductive CancelOutcome where
  | notFound (active_appointments similar_appointments : List String)
  | success (cancelled_id : String)
  | failed
deriving DecidableEq

/-- The direct appointment-id branch of `SmartCancellationTool.execute`: find
the first appointment whose id matches case-insensitively and is still
SCHEDULED; when none exists, report `not_found` together with the active ids
and the ids related by substring containment; otherwise flip the record to
CANCELLED through `update_appointment_status`. -/
def cancel_by_id (db : HospitalDB) (appointment_id : String) : HospitalDB × CancelOutcome :=
  match db.appointments.find? (fun a => str_upper a.id == str_upper appointment_id
      && a.status == AppointmentStatus.scheduled) with
  | none =>
    let active := (db.appointments.filter
      (fun a => a.status == AppointmentStatus.scheduled)).map (·.id)
    let similar := active.filter (fun apt_id =>
      str_contains apt_id (str_upper appointment_id)
        || str_contains (str_upper appointment_id) apt_id)
    (db, .notFound active similar)
  | some apt =>
    let (apts', ok) := update_appointment_status db.appointments apt.id .cancelled
    if ok then ({ db with appointments := apts' }, .success apt.id)
    else (db, .failed)

/-- C5. Cancelling an id whose every matching record is already CANCELLED
returns the not-found outcome and leaves the store untouched: the record stays
CANCELLED and no slot is freed a second time. -/
theorem cancel_cancelled_not_found (db : HospitalDB) (appointment_id : String)
    (h : ∀ a ∈ db.appointments, str_upper a.id = str_upper appointment_id
      → a.status = AppointmentStatus.cancelled) :
    (cancel_by_id db appointment_id).1 = db
      ∧ ∃ act sim, (cancel_by_id db appointment_id).2 = CancelOutcome.notFound act sim := by
  have hfind : db.appointments.find? (fun a => str_upper a.id == str_upper appointment_id
      && a.status == AppointmentStatus.scheduled) = none := by
    rw [List.find?_eq_none]
    intro a ha
    by_cases hid : str_upper a.id = str_upper appointment_id
    · have := h a ha hid
      simp [this, hid]
    · simp [hid]
  constructor
  · simp [cancel_by_id, hfind]
  · simp only [cancel_by_id, hfind]
    exact ⟨_, _, rfl⟩

/-- A record that was already cancelled. -/
def c5_apt : Appointment :=
  { id := "APT0001", patient_id := "P1", doctor_id := "dr_x",
    date := 10, time := "09:00", status := .cancelled }

/-- A store holding exactly one record, already CANCELLED. -/
def c5_db : HospitalDB :=
  { appointments := [c5_apt], appointment_counter := 2 }

/-- Witness for C5 at a concrete store holding one CANCELLED record. -/
theorem cancel_cancelled_not_found_witness :
    (cancel_by_id c5_db "apt0001").1 = c5_db
      ∧ ∃ act sim, (cancel_by_id c5_db "apt0001").2 = CancelOutcome.notFound act sim :=
  cancel_cancelled_not_found c5_db "apt0001" (by decide)

/-! ## Analytics tool (src/allocation_system/tools/analytics_tool.py) -/

/-- Number of SCHEDULED appointments of one doctor (the `doctor_appointments`
filter in `_generate_overview_analytics`). -/
def scheduled_count (apts : List Appointment) (doctor_id : String) : Nat :=
  (apts.filter (fun a => a.doctor_id == doctor_id
      && a.status == AppointmentStatus.scheduled)).length

/-- `total_capacity = len(doctor.available_hours) * len(doctor.available_days)`. -/
def total_capacity (doctor : Doctor) : Nat :=
  doctor.available_hours.length * doctor.available_days.length

/-- `utilization_rate = (len(doctor_appointments) / total_capacity * 100) if
total_capacity > 0 else 0`. -/
def utilization_rate (apts : List Appointment) (doctor : Doctor) (doctor_id : String) : ℚ :=
  if 0 < total_capacity doctor then
    (scheduled_count apts doctor_id : ℚ) / (total_capacity doctor : ℚ) * 100
  else 0

/-- The status banding chain of `_generate_overview_analytics`. -/
def doctor_status (u : ℚ) : String :=
  if u > 90 then "overbooked"
  else if u > 70 then "busy"
  else if u > 40 then "moderate"
  else "underutilized"

/-- One entry of the `doctor_analytics` dict built per doctor (the source
additionally rounds the displayed rate to one decimal; the status is computed
from the unrounded value, which is the one kept here). -/
structure DoctorAnalyticsEntry where
  appointments : Nat
  utilization_rate : ℚ
  specialty : String
  capacity : Nat
  status : String
deriving DecidableEq

/-- The per-doctor analytics record of `_generate_overview_analytics`. -/
def doctor_analytics_entry (apts : List Appointment) (doctor_id : String)
    (doctor : Doctor) : DoctorAnalyticsEntry :=
  { appointments := scheduled_count apts doctor_id,
    utilization_rate := utilization_rate apts doctor doctor_id,
    specialty := doctor.specialty,
    capacity := total_capacity doctor,
    status := doctor_status (utilization_rate apts doctor doctor_id) }

/-- C9. For a doctor with non-zero capacity, the analytics utilization equals
scheduled count divided by (hours × days) times 100, and the status band is
overbooked above 90, busy above 70, moderate above 40, and underutilized
otherwise. -/
theorem utilization_formula_and_bands (apts : List Appointment) (doctor : Doctor)
    (doctor_id : String) (h : 0 < total_capacity doctor) :
    (doctor_analytics_entry apts doctor_id doctor).utilization_rate
        = (scheduled_count apts doctor_id : ℚ)
          / ((doctor.available_hours.length * doctor.available_days.length : Nat) : ℚ) * 100
      ∧ (90 < (doctor_analytics_entry apts doctor_id doctor).utilization_rate
          → (doctor_analytics_entry apts doctor_id doctor).status = "overbooked")
      ∧ (70 < (doctor_analytics_entry apts doctor_id doctor).utilization_rate
          → (doctor_analytics_entry apts doctor_id doctor).utilization_rate ≤ 90
          → (doctor_analytics_entry apts doctor_id doctor).status = "busy")
      ∧ (40 < (doctor_analytics_entry apts doctor_id doctor).utilization_rate
          → (doctor_analytics_entry apts doctor_id doctor).utilization_rate ≤ 70
          → (doctor_analytics_entry apts doctor_id doctor).status = "moderate")
      ∧ ((doctor_analytics_entry apts doctor_id doctor).utilization_rate ≤ 40
          → (doctor_analytics_entry apts doctor_id doctor).status = "underutilized") := by
  refine ⟨?_, ?_, ?_, ?_, ?_⟩
  · simp only [doctor_analytics_entry]
    rw [utilization_rate, if_pos h]
    rfl
  · intro h90
    simp only [doctor_analytics_entry] at h90 ⊢
    simp [doctor_status, h90]
  · intro h70 h90
    simp only [doctor_analytics_entry] at h70 h90 ⊢
    simp [doctor_status, not_lt.mpr h90, h70]
  · intro h40 h70
    simp only [doctor_analytics_entry] at h40 h70 ⊢
    have h90 : utilization_rate apts doctor doctor_id ≤ 90 :=
      le_trans h70 (by norm_num)
    simp [doctor_status, not_lt.mpr h90, not_lt.mpr h70, h40]
  · intro h40
    simp only [doctor_analytics_entry] at h40 ⊢
    have h70 : utilization_rate apts doctor doctor_id ≤ 70 :=
      le_trans h40 (by norm_num)
    have h90 : utilization_rate apts doctor doctor_id ≤ 90 :=
      le_trans h40 (by norm_num)
    simp [doctor_status, not_lt.mpr h90, not_lt.mpr h70, not_lt.mpr h40]

/-- Witness for C9 at the c3 store: dr_y has capacity 4, one SCHEDULED
appointment, hence a 25% utilization in the underutilized band. -/
theorem utilization_formula_and_bands_witness :
    (doctor_analytics_entry c3_db.appointments "dr_y" c3_doctor).utilization_rate
        = (scheduled_count c3_db.appointments "dr_y" : ℚ)
          / ((c3_doctor.available_hours.length * c3_doctor.available_days.length : Nat) : ℚ) * 100
      ∧ (90 < (doctor_analytics_entry c3_db.appointments "dr_y" c3_doctor).utilization_rate
          → (doctor_analytics_entry c3_db.appointments "dr_y" c3_doctor).status = "overbooked")
      ∧ (70 < (doctor_analytics_entry c3_db.appointments "dr_y" c3_doctor).utilization_rate
          → (doctor_analytics_entry c3_db.appointments "dr_y" c3_doctor).utilization_rate ≤ 90
          → (doctor_analytics_entry c3_db.appointments "dr_y" c3_doctor).status = "busy")
      ∧ (40 < (doctor_analytics_entry c3_db.appointments "dr_y" c3_doctor).utilization_rate
          → (doctor_analytics_entry c3_db.appointments "dr_y" c3_doctor).utilization_rate ≤ 70
          → (doctor_analytics_entry c3_db.appointments "dr_y" c3_doctor).status = "moderate")
      ∧ ((doctor_analytics_entry c3_db.appointments "dr_y" c3_doctor).utilization_rate ≤ 40
          → (doctor_analytics_entry c3_db.appointments "dr_y" c3_doctor).status = "underutilized") :=
  utilization_formula_and_bands c3_db.appointments c3_doctor "dr_y" (by decide)

/-! ## Money management (src/money_management/models.py, tools, agent.py) -/

/-- `Account` dataclass; the balance is a rational standing in for the float,
`last_updated` an abstract timestamp. -/
structure Account where
  id : String
  name : String
  type : String
  balance : ℚ
  last_updated : Nat
deriving DecidableEq

/-- `Payment` dataclass. -/
structure Payment where
  id : String
  amount : ℚ
  recipient : String
  purpose : String
  due_date : Nat
  status : String := "pending"
  payment_date : Option Nat := none
deriving DecidableEq

/-- The slice of `FinanceDB` touched by payment processing: the payments list
and the `"main"` account (always present in the accounts dict). -/
structure PaymentState where
  main : Account
  payments : List Payment
deriving DecidableEq

/-- Outcome of the payment-processing branch of the money agent. -/
inductive PaymentOutcome where
  | missingAmount
  | insufficientFunds
  | success
deriving DecidableEq

/-- `PaymentTool.run`: build a `Payment` (id from the current timestamp,
status pending) and append it to the payments list; always succeeds. -/
def payment_tool_run (payments : List Payment) (amount : ℚ)
    (recipient purpose : String) (due_date now : Nat) : List Payment :=
  payments ++
    [{ id := toString now, amount := amount, recipient := recipient,
       purpose := purpose, due_date := due_date }]

/-- The payment-processing branch of `money_management/agent.py` (the debit
path): a zero parsed amount is refused; a request exceeding the main balance
is refused with the insufficient-funds error before any mutation; otherwise
`PaymentTool.run` appends the Payment record and the agent decrements the
main balance and stamps `last_updated`. -/
def process_payment (st : PaymentState) (amount : ℚ) (query : String) (now : Nat) :
    PaymentState × PaymentOutcome :=
  if amount = 0 then (st, .missingAmount)
  else if st.main.balance < amount then (st, .insufficientFunds)
  else
    ({ main := { st.main with balance := st.main.balance - amount, last_updated := now },
       payments := payment_tool_run st.payments amount "vendor" query now now },
     .success)

/-- C2. A debit with amount greater than the balance is rejected with the
insufficient-funds error and leaves the state (in particular the balance)
unchanged; otherwise the balance drops by the amount, `last_updated` is
stamped and a Payment record is appended; and starting from a non-negative
balance no debit drives the balance negative. -/
theorem debit_insufficient_funds_and_balance (st : PaymentState) (amount : ℚ)
    (query : String) (now : Nat) (hpos : 0 < amount) :
    (st.main.balance < amount → process_payment st amount query now = (st, .insufficientFunds))
      ∧ (amount ≤ st.main.balance →
          (process_payment st amount query now).2 = PaymentOutcome.success
            ∧ (process_payment st amount query now).1.main.balance = st.main.balance - amount
            ∧ (process_payment st amount query now).1.main.last_updated = now
            ∧ (process_payment st amount query now).1.payments
              = st.payments ++
                  [{ id := toString now, amount := amount, recipient := "vendor",
                     purpose := query, due_date := now }])
      ∧ (0 ≤ st.main.balance → 0 ≤ (process_payment st amount query now).1.main.balance) := by
  have hne : amount ≠ 0 := ne_of_gt hpos
  refine ⟨?_, ?_, ?_⟩
  · intro hlt
    simp [process_payment, hne, hlt]
  · intro hle
    have hnlt : ¬ st.main.balance < amount := not_lt.mpr hle
    refine ⟨?_, ?_, ?_, ?_⟩ <;> simp [process_payment, hne, hnlt, payment_tool_run]
  · intro hbal
    by_cases hlt : st.main.balance < amount
    · simp [process_payment, hne, hlt, hbal]
    · have hle := not_lt.mp hlt
      simp [process_payment, hne, hlt]
      linarith

/-- The source's main operating account (models.py seeds balance 1000000). -/
def c2_account : Account :=
  { id := "main", name := "Operating Account", type := "operating",
    balance := 1000000, last_updated := 0 }

/-- Payment-processing state for the C2 witness. -/
def c2_state : PaymentState :=
  { main := c2_account, payments := [] }

/-- Witness for C2: the theorem instantiated at the seeded main account and a
500 debit. -/
theorem debit_insufficient_funds_and_balance_witness :
    (c2_state.main.balance < 500
        → process_payment c2_state 500 "pay vendor 500" 99 = (c2_state, .insufficientFunds))
      ∧ (500 ≤ c2_state.main.balance →
          (process_payment c2_state 500 "pay vendor 500" 99).2 = PaymentOutcome.success
            ∧ (process_payment c2_state 500 "pay vendor 500" 99).1.main.balance
              = c2_state.main.balance - 500
            ∧ (process_payment c2_state 500 "pay vendor 500" 99).1.main.last_updated = 99
            ∧ (process_payment c2_state 500 "pay vendor 500" 99).1.payments
              = c2_state.payments ++
                  [{ id := toString 99, amount := 500, recipient := "vendor",
                     purpose := "pay vendor 500", due_date := 99 }])
      ∧ (0 ≤ c2_state.main.balance
          → 0 ≤ (process_payment c2_state 500 "pay vendor 500" 99).1.main.balance) :=
  debit_insufficient_funds_and_balance c2_state 500 "pay vendor 500" 99 (by norm_num)

/-- `Budget` dataclass; `remaining_amount` is stored and set by
`__post_init__` to `total_amount - spent_amount`. -/
structure Budget where
  department : String
  period : String
  total_amount : ℚ
  start_date : Nat
  end_date : Nat
  spent_amount : ℚ
  remaining_amount : ℚ
deriving DecidableEq

/-- Budget construction including `__post_init__`: the remaining amount is
derived from total and spent. -/
def mk_budget (department period : String) (total_amount : ℚ)
    (start_date end_date : Nat) (spent_amount : ℚ) : Budget :=
  { department := department, period := period, total_amount := total_amount,
    start_date := start_date, end_date := end_date, spent_amount := spent_amount,
    remaining_amount := total_amount - spent_amount }

/-- The `"update"` branch of `BudgetTool.run`: `spent_amount += amount` then
`remaining_amount = total_amount - spent_amount`. -/
def budget_tool_update (b : Budget) (amount : ℚ) : Budget :=
  { b with
    spent_amount := b.spent_amount + amount,
    remaining_amount := b.total_amount - (b.spent_amount + amount) }

/-- The expense branch of the money agent (agent.py): `spent_amount += amount`
and `remaining_amount -= amount` in the same step. -/
def agent_expense (b : Budget) (amount : ℚ) : Budget :=
  { b with
    spent_amount := b.spent_amount + amount,
    remaining_amount := b.remaining_amount - amount }

/-- The two write paths that touch a budget's spent amount. -/
inductive BudgetOp where
  | toolUpdate (amount : ℚ)
  | agentExpense (amount : ℚ)
deriving DecidableEq

/-- Apply one budget write. -/
def apply_budget_op (b : Budget) : BudgetOp → Budget
  | .toolUpdate amount => budget_tool_update b amount
  | .agentExpense amount => agent_expense b amount

/-- Apply a sequence of budget writes in order. -/
def apply_budget_ops (b : Budget) : List BudgetOp → Budget
  | [] => b
  | op :: ops => apply_budget_ops (apply_budget_op b op) ops

/-- Each budget write preserves `remaining_amount = total_amount - spent_amount`
(each updates both fields in the same operation). -/
theorem apply_budget_op_invariant (b : Budget) (op : BudgetOp)
    (h : b.remaining_amount = b.total_amount - b.spent_amount) :
    (apply_budget_op b op).remaining_amount
      = (apply_budget_op b op).total_amount - (apply_budget_op b op).spent_amount := by
  cases op with
  | toolUpdate amount => simp [apply_budget_op, budget_tool_update]
  | agentExpense amount =>
    simp [apply_budget_op, agent_expense, h]
    ring

/-- C6. For every department budget, after construction and after any
sequence of budget-update operations, `remaining_amount` equals
`total_amount - spent_amount`; every write path that changes the spent amount
recomputes the remaining amount within the same operation. -/
theorem budget_remaining_invariant (department period : String) (total_amount : ℚ)
    (start_date end_date : Nat) (spent_amount : ℚ) (ops : List BudgetOp) :
    (apply_budget_ops
        (mk_budget department period total_amount start_date end_date spent_amount)
        ops).remaining_amount
      = (apply_budget_ops
          (mk_budget department period total_amount start_date end_date spent_amount)
          ops).total_amount
        - (apply_budget_ops
            (mk_budget department period total_amount start_date end_date spent_amount)
            ops).spent_amount := by
  have hgen : ∀ (ops : List BudgetOp) (b : Budget),
      b.remaining_amount = b.total_amount - b.spent_amount →
      (apply_budget_ops b ops).remaining_amount
        = (apply_budget_ops b ops).total_amount - (apply_budget_ops b ops).spent_amount := by
    intro ops
    induction ops with
    | nil => intro b hb; exact hb
    | cons op ops ih =>
      intro b hb
      exact ih (apply_budget_op b op) (apply_budget_op_invariant b op hb)
  exact hgen ops _ (by simp [mk_budget])

/-- Structured result of `BudgetTool.run` (status plus payload). -/
inductive BudgetRunOutcome where
  | noBudget
  | checkData (total spent remaining : ℚ)
  | updated
deriving DecidableEq

/-- Budget lookup `finance_db.budgets.get(department)` over the association
list embedding of the budgets dict. -/
def find_budget (budgets : List (String × Budget)) (department : String) : Option Budget :=
  (budgets.find? (fun p => p.1 == department)).map (·.2)

/-- Replace the budget stored under a department name (the in-place mutation
of the dict entry). -/
def set_budget (budgets : List (String × Budget)) (department : String) (b : Budget) :
    List (String × Budget) :=
  match budgets with
  | [] => []
  | p :: rest =>
    if p.1 = department then (p.1, b) :: rest
    else p :: set_budget rest department b

/-- `BudgetTool.run`: unknown department yields the error result; action
`"check"` returns the budget figures; action `"update"` mutates the budget;
any other action reaches the end of the function body, which in Python
returns `None` — modelled as `none`. -/
def budget_tool_run (budgets : List (String × Budget)) (department action : String)
    (amount : ℚ) : Option (List (String × Budget) × BudgetRunOutcome) :=
  match find_budget budgets department with
  | none => some (budgets, .noBudget)
  | some b =>
    if action = "check" then
      some (budgets, .checkData b.total_amount b.spent_amount b.remaining_amount)
    else if action = "update" then
      some (set_budget budgets department (budget_tool_update b amount), .updated)
    else none

/-- C10. When the department has a budget and the action is neither `"check"`
nor `"update"`, `BudgetTool.run` returns no structured result at all. -/
theorem budget_tool_unknown_action_none (budgets : List (String × Budget))
    (department action : String) (amount : ℚ)
    (hdep : find_budget budgets department ≠ none)
    (hcheck : action ≠ "check") (hupdate : action ≠ "update") :
    budget_tool_run budgets department action amount = none := by
  obtain ⟨b, hb⟩ := Option.ne_none_iff_exists'.mp hdep
  simp [budget_tool_run, hb, hcheck, hupdate]

/-- The seeded WardA budget (models.py). -/
def warda_budget : Budget :=
  mk_budget "WardA" "monthly" 50000 0 29 15000

/-- Witness for C10: asking for a `"delete"` action on WardA returns `none`. -/
theorem budget_tool_unknown_action_none_witness :
    budget_tool_run [("WardA", warda_budget)] "WardA" "delete" 5 = none :=
  budget_tool_unknown_action_none [("WardA", warda_budget)] "WardA" "delete" 5
    (by decide) (by decide) (by decide)

/-! ## Hospital inventory (src/hospital_inventory/tools/inventory_db_tool.py) -/

/-- An inventory record (`expiry_date` kept as an opaque day code). -/
structure InventoryItem where
  item_id : String
  name : String
  quantity : Int
  reorder_threshold : Int
  usage_history : List Int
  expiry_date : Nat
deriving DecidableEq

/-- `InventoryDBTool.update_stock`: set the quantity of the first item with
the given id; `False` when the id is unknown (`get_item_by_id` raising). -/
def update_stock (inv : List InventoryItem) (item_id : String) (new_quantity : Int) :
    List InventoryItem × Bool :=
  match inv with
  | [] => ([], false)
  | it :: rest =>
    if it.item_id = item_id then ({ it with quantity := new_quantity } :: rest, true)
    else
      let (rest', ok) := update_stock rest item_id new_quantity
      (it :: rest', ok)

/-- `InventoryDBTool.record_usage`: subtract the used amount from the first
matching item's quantity — with no check against the current stock — and
append the used amount to its usage history. -/
def record_usage (inv : List InventoryItem) (item_id : String) (used_amount : Int) :
    List InventoryItem × Bool :=
  match inv with
  | [] => ([], false)
  | it :: rest =>
    if it.item_id = item_id then
      ({ it with
         quantity := it.quantity - used_amount,
         usage_history := it.usage_history ++ [used_amount] } :: rest, true)
    else
      let (rest', ok) := record_usage rest item_id used_amount
      (it :: rest', ok)

/-- Quantity of an item by id. -/
def quantity_of (inv : List InventoryItem) (item_id : String) : Option Int :=
  (inv.find? (fun it => it.item_id == item_id)).map (·.quantity)

/-- The seeded inventory of `InventoryDBTool.__init__`. -/
def initial_inventory : List InventoryItem :=
  [{ item_id := "med_001", name := "Paracetamol (500 mg)", quantity := 20,
     reorder_threshold := 30, usage_history := [15, 18, 22, 20], expiry_date := 815 },
   { item_id := "equip_002", name := "Disposable Syringe (5 mL)", quantity := 50,
     reorder_threshold := 40, usage_history := [45, 50, 48, 52], expiry_date := 1231 }]

/-- C7, counterexample. `record_usage` subtracts without any stock check: on
the seeded inventory, using 25 units of med_001 (stock 20) leaves the
quantity at -5, refuting the never-negative claim. -/
theorem record_usage_negative_quantity :
    quantity_of (record_usage initial_inventory "med_001" 25).1 "med_001" = some (-5)
      ∧ ((-5 : Int) < 0) := by
  refine ⟨by decide, by decide⟩

/-- The two stock-mutating operations of `InventoryDBTool`. -/
inductive StockOp where
  | update (item_id : String) (new_quantity : Int)
  | use (item_id : String) (used_amount : Int)
deriving DecidableEq

/-- Apply one stock operation (dropping the success flag). -/
def apply_stock_op (inv : List InventoryItem) : StockOp → List InventoryItem
  | .update item_id q => (update_stock inv item_id q).1
  | .use item_id amt => (record_usage inv item_id amt).1

/-- Apply a sequence of stock operations in order. -/
def apply_stock_ops (inv : List InventoryItem) : List StockOp → List InventoryItem
  | [] => inv
  | op :: ops => apply_stock_ops (apply_stock_op inv op) ops

/-- An operation is within stock when an update writes a non-negative
quantity and a usage does not exceed the current quantity of its item. -/
def op_within_stock (inv : List InventoryItem) : StockOp → Bool
  | .update _ q => decide (0 ≤ q)
  | .use item_id amt =>
    inv.all (fun it => !(it.item_id == item_id) || decide (amt ≤ it.quantity))

/-- A sequence is within stock when each operation is, in the state it is
applied to. -/
def ops_within_stock (inv : List InventoryItem) : List StockOp → Bool
  | [] => true
  | op :: ops => op_within_stock inv op && ops_within_stock (apply_stock_op inv op) ops

/-- Setting a non-negative quantity preserves non-negativity of all stocks. -/
theorem update_stock_nonneg (item_id : String) (q : Int) (hq : 0 ≤ q) :
    ∀ inv : List InventoryItem, (∀ it ∈ inv, 0 ≤ it.quantity) →
      ∀ it ∈ (update_stock inv item_id q).1, 0 ≤ it.quantity := by
  intro inv
  induction inv with
  | nil =>
    intro _ it hit
    simp [update_stock] at hit
  | cons a rest ih =>
    intro h0 it hit
    by_cases ha : a.item_id = item_id
    · simp only [update_stock, if_pos ha] at hit
      rcases List.mem_cons.mp hit with rfl | hit
      · exact hq
      · exact h0 it (by simp [hit])
    · simp only [update_stock, if_neg ha] at hit
      rcases List.mem_cons.mp hit with rfl | hit
      · exact h0 it (by simp)
      · exact ih (fun i hi => h0 i (by simp [hi])) it hit

/-- A usage bounded by the current stock of its item preserves
non-negativity of all stocks. -/
theorem record_usage_nonneg (item_id : String) (amt : Int) :
    ∀ inv : List InventoryItem, (∀ it ∈ inv, 0 ≤ it.quantity) →
      (∀ it ∈ inv, it.item_id = item_id → amt ≤ it.quantity) →
      ∀ it ∈ (record_usage inv item_id amt).1, 0 ≤ it.quantity := by
  intro inv
  induction inv with
  | nil =>
    intro _ _ it hit
    simp [record_usage] at hit
  | cons a rest ih =>
    intro h0 hall it hit
    by_cases ha : a.item_id = item_id
    · simp only [record_usage, if_pos ha] at hit
      rcases List.mem_cons.mp hit with rfl | hit
      · have h1 := h0 a (by simp)
        have h2 := hall a (by simp) ha
        show (0 : Int) ≤ a.quantity - amt
        omega
      · exact h0 it (by simp [hit])
    · simp only [record_usage, if_neg ha] at hit
      rcases List.mem_cons.mp hit with rfl | hit
      · exact h0 it (by simp)
      · exact ih (fun i hi => h0 i (by simp [hi]))
          (fun i hi heq => hall i (by simp [hi]) heq) it hit

/-- One within-stock operation keeps every quantity non-negative. -/
theorem apply_stock_op_nonneg (inv : List InventoryItem) (op : StockOp)
    (h0 : ∀ it ∈ inv, 0 ≤ it.quantity) (hop : op_within_stock inv op = true) :
    ∀ it ∈ apply_stock_op inv op, 0 ≤ it.quantity := by
  cases op with
  | update item_id q =>
    have hq : 0 ≤ q := by simpa [op_within_stock] using hop
    exact update_stock_nonneg item_id q hq inv h0
  | use item_id amt =>
    have hall : ∀ it ∈ inv, it.item_id = item_id → amt ≤ it.quantity := by
      simp only [op_within_stock, List.all_eq_true, Bool.or_eq_true,
        Bool.not_eq_true', beq_eq_false_iff_ne, decide_eq_true_eq] at hop
      intro it hit heq
      rcases hop it hit with hne | hle
      · exact absurd heq hne
      · exact hle
    exact record_usage_nonneg item_id amt inv h0 hall

/-- C7 (amended). Starting from an inventory with non-negative quantities,
any sequence of stock operations in which each `record_usage` uses at most
the item's current quantity and each `update_stock` writes a non-negative
quantity leaves every quantity non-negative (the unconditional claim fails:
`record_usage` itself performs no stock check, see the counterexample). -/
theorem stock_quantity_nonneg (inv : List InventoryItem) (ops : List StockOp)
    (h0 : ∀ it ∈ inv, 0 ≤ it.quantity) (hops : ops_within_stock inv ops = true) :
    ∀ it ∈ apply_stock_ops inv ops, 0 ≤ it.quantity := by
  induction ops generalizing inv with
  | nil => simpa [apply_stock_ops] using h0
  | cons op ops ih =>
    have hsplit := hops
    simp only [ops_within_stock, Bool.and_eq_true] at hsplit
    simpa [apply_stock_ops] using
      ih (apply_stock_op inv op)
        (apply_stock_op_nonneg inv op h0 hsplit.1) hsplit.2

/-- Witness for C7 (amended): on the seeded inventory, using 5 of med_001,
setting equip_002 to 10 and then using 10 of equip_002 keeps all quantities
non-negative. -/
theorem stock_quantity_nonneg_witness :
    (∀ it ∈ initial_inventory, 0 ≤ it.quantity)
      ∧ ops_within_stock initial_inventory
          [StockOp.use "med_001" 5, StockOp.update "equip_002" 10,
            StockOp.use "equip_002" 10] = true
      ∧ ∀ it ∈ apply_stock_ops initial_inventory
          [StockOp.use "med_001" 5, StockOp.update "equip_002" 10,
            StockOp.use "equip_002" 10], 0 ≤ it.quantity :=
  ⟨by decide, by decide,
    stock_quantity_nonneg initial_inventory
      [StockOp.use "med_001" 5, StockOp.update "equip_002" 10,
        StockOp.use "equip_002" 10] (by decide) (by decide)⟩

/-! ## Ward allocation (src/ward_allocation/models.py, tools/transfer_tool.py)

The `Ward` methods `has_patient`, `is_full`, `discharge_patient` and
`assign_patient` are called by the transfer, discharge and assignment tools
but are not defined in the `Ward` class under src; they are modelled from the
spec below. -/

/-- `Bed` dataclass: an optional occupant. -/
structure Bed where
  bed_id : String
  patient_id : Option String := none
deriving DecidableEq

/-- `Bed.is_occupied`. -/
def Bed.is_occupied (b : Bed) : Bool :=
  b.patient_id.isSome

/-- `Patient` dataclass of the ward domain. -/
structure WardPatient where
  id : String
  name : String
  condition : String
  assigned_ward : Option String := none
deriving DecidableEq

/-- `Ward` dataclass; the beds dict is embedded as a list in insertion
order. -/
structure Ward where
  name : String
  capacity : Nat
  beds : List Bed
deriving DecidableEq

/-- `Ward.available_beds`. -/
def Ward.available_beds (w : Ward) : List String :=
  (w.beds.filter (fun b => !b.is_occupied)).map (·.bed_id)

/-- `Ward.occupancy`. -/
def Ward.occupancy (w : Ward) : Nat :=
  (w.beds.filter (fun b => b.is_occupied)).length

/-- Modelled from the spec: `Ward.has_patient` (called by the tools, missing
from the `Ward` class under src) — the subject is in the ward when it
occupies one of its beds ("subject currently assigned to from_owner"). -/
def Ward.has_patient (w : Ward) (patient_id : String) : Bool :=
  w.beds.any (fun b => b.patient_id == some patient_id)

/-- Modelled from the spec: `Ward.is_full` (called by the transfer tool,
missing from the `Ward` class under src) — the target must "have ≥1 free bed
(else TargetFull)", so a ward is full when no bed is free. -/
def Ward.is_full (w : Ward) : Bool :=
  w.available_beds.isEmpty

/-- Free the first bed occupied by the given subject. -/
def free_first_bed (patient_id : String) : List Bed → List Bed
  | [] => []
  | b :: bs =>
    if b.patient_id == some patient_id then { b with patient_id := none } :: bs
    else b :: free_first_bed patient_id bs

/-- Modelled from the spec: `Ward.discharge_patient` (called by the tools,
missing from the `Ward` class under src) — "free source bed". -/
def Ward.discharge_patient (w : Ward) (patient_id : String) : Ward :=
  { w with beds := free_first_bed patient_id w.beds }

/-- Occupy the first free bed with the subject; the flag reports success. -/
def occupy_first_bed (patient_id : String) : List Bed → List Bed × Bool
  | [] => ([], false)
  | b :: bs =>
    if !b.is_occupied then ({ b with patient_id := some patient_id } :: bs, true)
    else
      let (bs', ok) := occupy_first_bed patient_id bs
      (b :: bs', ok)

/-- Modelled from the spec: `Ward.assign_patient` (called by the tools,
missing from the `Ward` class under src) — "occupy target bed", failing when
no bed is free. -/
def Ward.assign_patient (w : Ward) (p : WardPatient) : Ward × Bool :=
  ({ w with beds := (occupy_first_bed p.id w.beds).1 }, (occupy_first_bed p.id w.beds).2)

/-- The `HospitalDB` of the ward domain: patients and wards dicts as lists. -/
structure WardDB where
  patients : List WardPatient
  wards : List Ward
deriving DecidableEq

/-- Dict lookup `hospital_db.wards.get(name)`. -/
def find_ward : List Ward → String → Option Ward
  | [], _ => none
  | w :: rest, n => if w.name = n then some w else find_ward rest n

/-- Dict lookup `hospital_db.patients.get(patient_id)`. -/
def find_patient : List WardPatient → String → Option WardPatient
  | [], _ => none
  | p :: rest, pid => if p.id = pid then some p else find_patient rest pid

/-- Store back a mutated ward under its name (the tools mutate the ward
object held in the dict in place). -/
def set_ward (wards : List Ward) (w' : Ward) : List Ward :=
  match wards with
  | [] => []
  | w :: rest => if w.name = w'.name then w' :: rest else w :: set_ward rest w'

/-- Outcome of `TransferTool.run` (status plus which error fired). -/
inductive TransferOutcome where
  | missingFields
  | invalid
  | notInWard
  | targetFull
  | success
deriving DecidableEq

/-- `TransferTool.run` (empty strings standing in for the falsy missing
fields): look up both wards and the patient, refuse unknown ids, refuse when
the patient is not in the source ward, then when the target ward is full;
otherwise free the source bed and occupy a target bed. -/
def transfer_run (db : WardDB) (patient_id from_ward_name to_ward_name : String) :
    WardDB × TransferOutcome :=
  if patient_id = "" ∨ from_ward_name = "" ∨ to_ward_name = "" then
    (db, .missingFields)
  else
    match find_ward db.wards from_ward_name, find_ward db.wards to_ward_name,
        find_patient db.patients patient_id with
    | some from_ward, some to_ward, some patient =>
      if !from_ward.has_patient patient_id then (db, .notInWard)
      else if to_ward.is_full then (db, .targetFull)
      else
        let from_ward' := from_ward.discharge_patient patient_id
        let to_ward' := (to_ward.assign_patient patient).1
        ({ db with wards := set_ward (set_ward db.wards from_ward') to_ward' }, .success)
    | _, _, _ => (db, .invalid)

/-- A successful ward lookup returns a ward carrying the requested name. -/
theorem find_ward_name : ∀ (wards : List Ward) (n : String) (w : Ward),
    find_ward wards n = some w → w.name = n := by
  intro wards
  induction wards with
  | nil => intro n w h; simp [find_ward] at h
  | cons w0 rest ih =>
    intro n w h
    by_cases hw : w0.name = n
    · simp only [find_ward, if_pos hw] at h
      cases h
      exact hw
    · simp only [find_ward, if_neg hw] at h
      exact ih n w h

/-- A successful patient lookup returns a patient carrying the requested id. -/
theorem find_patient_id : ∀ (patients : List WardPatient) (pid : String) (p : WardPatient),
    find_patient patients pid = some p → p.id = pid := by
  intro patients
  induction patients with
  | nil => intro pid p h; simp [find_patient] at h
  | cons p0 rest ih =>
    intro pid p h
    by_cases hp : p0.id = pid
    · simp only [find_patient, if_pos hp] at h
      cases h
      exact hp
    · simp only [find_patient, if_neg hp] at h
      exact ih pid p h

/-- Looking up the stored ward's own name after `set_ward` yields the new
value, provided a ward of that name was present. -/
theorem find_set_ward_same : ∀ (wards : List Ward) (w' w0 : Ward) (n : String),
    w'.name = n → find_ward wards n = some w0 →
    find_ward (set_ward wards w') n = some w' := by
  intro wards
  induction wards with
  | nil => intro w' w0 n hn hf; simp [find_ward] at hf
  | cons w rest ih =>
    intro w' w0 n hn hf
    by_cases hw : w.name = w'.name
    · simp only [set_ward, if_pos hw, find_ward, if_pos hn]
    · have hwn : ¬ w.name = n := fun h => hw (h.trans hn.symm)
      simp only [set_ward, if_neg hw, find_ward, if_neg hwn]
      simp only [find_ward, if_neg hwn] at hf
      exact ih w' w0 n hn hf

/-- Storing a ward under a different name leaves a lookup unchanged. -/
theorem find_set_ward_other : ∀ (wards : List Ward) (w' : Ward) (n : String),
    w'.name ≠ n → find_ward (set_ward wards w') n = find_ward wards n := by
  intro wards
  induction wards with
  | nil => intro w' n hne; rfl
  | cons w rest ih =>
    intro w' n hne
    by_cases hw : w.name = w'.name
    · have hwn : ¬ w.name = n := fun h => hne (hw.symm.trans h)
      have hw'n : ¬ w'.name = n := hne
      simp only [set_ward, if_pos hw, find_ward, if_neg hwn, if_neg hw'n]
    · simp only [set_ward, if_neg hw, find_ward]
      by_cases hwn : w.name = n
      · simp only [if_pos hwn]
      · simp only [if_neg hwn]
        exact ih w' n hne

/-- Freeing the subject's bed clears it from the ward when the subject held
at most one bed there. -/
theorem free_first_bed_clears (patient_id : String) :
    ∀ beds : List Bed,
      (beds.filter (fun b => b.patient_id == some patient_id)).length ≤ 1 →
      ∀ b ∈ free_first_bed patient_id beds, b.patient_id ≠ some patient_id := by
  intro beds
  induction beds with
  | nil => intro _ b hb; simp [free_first_bed] at hb
  | cons b0 bs ih =>
    intro hcount b hb
    by_cases hmatch : b0.patient_id = some patient_id
    · have hbeq : (b0.patient_id == some patient_id) = true := by
        simp [hmatch]
      simp only [free_first_bed, if_pos hbeq] at hb
      have hbs : bs.filter (fun b => b.patient_id == some patient_id) = [] := by
        have h1 : (b0 :: bs).filter (fun b => b.patient_id == some patient_id)
            = b0 :: bs.filter (fun b => b.patient_id == some patient_id) := by
          simp [List.filter_cons, hbeq]
        rw [h1, List.length_cons] at hcount
        have h2 : (bs.filter (fun b => b.patient_id == some patient_id)).length = 0 := by
          omega
        exact List.length_eq_zero.mp h2
      rcases List.mem_cons.mp hb with rfl | hb
      · simp
      · intro hcontra
        have hbmem : b ∈ bs.filter (fun b => b.patient_id == some patient_id) :=
          List.mem_filter.mpr ⟨hb, by simp [hcontra]⟩
        simp [hbs] at hbmem
    · have hbeq : (b0.patient_id == some patient_id) = false := by
        simpa using hmatch
      simp only [free_first_bed, hbeq] at hb
      simp only [Bool.false_eq_true, if_false] at hb
      rcases List.mem_cons.mp hb with rfl | hb
      · exact hmatch
      · have hcount' : (bs.filter (fun b => b.patient_id == some patient_id)).length ≤ 1 := by
          simp only [List.filter_cons, hbeq] at hcount
          exact hcount
        exact ih hcount' b hb

/-- After discharge the subject no longer occupies a bed of the ward (when
it held at most one bed there). -/
theorem discharge_not_has (w : Ward) (patient_id : String)
    (hcount : (w.beds.filter (fun b => b.patient_id == some patient_id)).length ≤ 1) :
    (w.discharge_patient patient_id).has_patient patient_id = false := by
  simp only [Ward.discharge_patient, Ward.has_patient, List.any_eq_false]
  intro b hb
  have := free_first_bed_clears patient_id w.beds hcount b hb
  simp [this]

/-- When a free bed exists, occupying it marks the subject present. -/
theorem occupy_first_bed_any (patient_id : String) :
    ∀ beds : List Bed, (∃ b ∈ beds, b.is_occupied = false) →
      (occupy_first_bed patient_id beds).1.any
        (fun b => b.patient_id == some patient_id) = true := by
  intro beds
  induction beds with
  | nil => intro h; simp at h
  | cons b0 bs ih =>
    intro h
    by_cases hocc : b0.is_occupied
    · have hfree : ∃ b ∈ bs, b.is_occupied = false := by
        rcases h with ⟨b, hb, hbfree⟩
        rcases List.mem_cons.mp hb with rfl | hb
        · rw [hocc] at hbfree
          cases hbfree
        · exact ⟨b, hb, hbfree⟩
      simp only [occupy_first_bed, hocc, Bool.not_true, Bool.false_eq_true, if_false]
      simp only [List.any_cons, Bool.or_eq_true]
      exact Or.inr (ih hfree)
    · have hocc' : (!b0.is_occupied) = true := by simp [hocc]
      simp only [occupy_first_bed, if_pos hocc']
      simp

/-- A non-full ward has a free bed. -/
theorem not_full_exists_free (w : Ward) (h : w.is_full = false) :
    ∃ b ∈ w.beds, b.is_occupied = false := by
  simp only [Ward.is_full, Ward.available_beds] at h
  cases hf : w.beds.filter (fun b => !b.is_occupied) with
  | nil => rw [hf] at h; simp at h
  | cons b bs =>
    have hb : b ∈ w.beds.filter (fun b => !b.is_occupied) := by
      rw [hf]; simp
    have := List.mem_filter.mp hb
    exact ⟨b, this.1, by simpa using this.2⟩

/-- After a successful assignment the subject occupies a bed of the ward. -/
theorem assign_has (w : Ward) (p : WardPatient) (h : w.is_full = false) :
    (w.assign_patient p).1.has_patient p.id = true := by
  simp only [Ward.assign_patient, Ward.has_patient]
  exact occupy_first_bed_any p.id w.beds (not_full_exists_free w h)

/-- C8. With the patient in the source ward and not in the target ward: when
the target ward has zero free beds the transfer returns the target-full error
and leaves the store untouched (the patient still occupies the source ward);
and in every case the patient ends up occupying exactly one of the two wards
— never neither, never both. -/
theorem transfer_target_full_atomic (db : WardDB)
    (patient_id from_ward_name to_ward_name : String)
    (from_ward to_ward : Ward) (patient : WardPatient)
    (hpid : patient_id ≠ "") (hfn : from_ward_name ≠ "") (htn : to_ward_name ≠ "")
    (hne : from_ward_name ≠ to_ward_name)
    (hfw : find_ward db.wards from_ward_name = some from_ward)
    (htw : find_ward db.wards to_ward_name = some to_ward)
    (hp : find_patient db.patients patient_id = some patient)
    (hin : from_ward.has_patient patient_id = true)
    (huniq : (from_ward.beds.filter (fun b => b.patient_id == some patient_id)).length ≤ 1)
    (hnotin : to_ward.has_patient patient_id = false) :
    (to_ward.is_full = true →
        transfer_run db patient_id from_ward_name to_ward_name
          = (db, TransferOutcome.targetFull))
      ∧ ∃ fwA twA,
          find_ward (transfer_run db patient_id from_ward_name to_ward_name).1.wards
              from_ward_name = some fwA
            ∧ find_ward (transfer_run db patient_id from_ward_name to_ward_name).1.wards
                to_ward_name = some twA
            ∧ fwA.has_patient patient_id = !(twA.has_patient patient_id) := by
  have hfwname := find_ward_name db.wards from_ward_name from_ward hfw
  have htwname := find_ward_name db.wards to_ward_name to_ward htw
  have hpid_eq := find_patient_id db.patients patient_id patient hp
  constructor
  · intro hfull
    simp [transfer_run, hpid, hfn, htn, hfw, htw, hp, hin, hfull]
  · by_cases hfull : to_ward.is_full
    · have hred : transfer_run db patient_id from_ward_name to_ward_name
          = (db, TransferOutcome.targetFull) := by
        simp [transfer_run, hpid, hfn, htn, hfw, htw, hp, hin, hfull]
      refine ⟨from_ward, to_ward, ?_, ?_, ?_⟩
      · rw [hred]
        exact hfw
      · rw [hred]
        exact htw
      · rw [hin, hnotin]
        rfl
    · have hfull' : to_ward.is_full = false := by simpa using hfull
      have hred : transfer_run db patient_id from_ward_name to_ward_name
          = ({ db with
                wards := set_ward
                  (set_ward db.wards (from_ward.discharge_patient patient_id))
                  ((to_ward.assign_patient patient).1) },
             TransferOutcome.success) := by
        simp [transfer_run, hpid, hfn, htn, hfw, htw, hp, hin, hfull']
      have hfwA_name : (from_ward.discharge_patient patient_id).name = from_ward_name := by
        simpa [Ward.discharge_patient] using hfwname
      have htwA_name : ((to_ward.assign_patient patient).1).name = to_ward_name := by
        simpa [Ward.assign_patient] using htwname
      refine ⟨from_ward.discharge_patient patient_id, (to_ward.assign_patient patient).1,
        ?_, ?_, ?_⟩
      · rw [hred]
        show find_ward (set_ward (set_ward db.wards
          (from_ward.discharge_patient patient_id))
          ((to_ward.assign_patient patient).1)) from_ward_name = _
        rw [find_set_ward_other _ _ _ (by rw [htwA_name]; exact Ne.symm hne)]
        exact find_set_ward_same db.wards _ from_ward from_ward_name hfwA_name hfw
      · rw [hred]
        show find_ward (set_ward (set_ward db.wards
          (from_ward.discharge_patient patient_id))
          ((to_ward.assign_patient patient).1)) to_ward_name = _
        apply find_set_ward_same _ _ to_ward to_ward_name htwA_name
        rw [find_set_ward_other _ _ _ (by rw [hfwA_name]; exact hne)]
        exact htw
      · have h1 : (from_ward.discharge_patient patient_id).has_patient patient_id = false :=
          discharge_not_has from_ward patient_id huniq
        have h2 : ((to_ward.assign_patient patient).1).has_patient patient_id = true := by
          have := assign_has to_ward patient hfull'
          rwa [hpid_eq] at this
        rw [h1, h2]
        rfl

/-- WardA for the transfer witness: bed 1 held by P001, bed 2 free. -/
def c8_wardA : Ward :=
  { name := "WardA", capacity := 2,
    beds := [⟨"WardA_bed1", some "P001"⟩, ⟨"WardA_bed2", none⟩] }

/-- WardB for the transfer witness: its only bed held by P002 — zero free
beds. -/
def c8_wardB : Ward :=
  { name := "WardB", capacity := 1, beds := [⟨"WardB_bed1", some "P002"⟩] }

/-- The patient to transfer. -/
def c8_patient : WardPatient :=
  { id := "P001", name := "Alice", condition := "cardiac", assigned_ward := some "WardA" }

/-- Ward store for the transfer witness. -/
def c8_db : WardDB :=
  { patients := [c8_patient], wards := [c8_wardA, c8_wardB] }

/-- Witness for C8: transferring P001 from WardA (1 free bed) to the full
WardB. -/
theorem transfer_target_full_atomic_witness :
    (c8_wardB.is_full = true →
        transfer_run c8_db "P001" "WardA" "WardB" = (c8_db, TransferOutcome.targetFull))
      ∧ ∃ fwA twA,
          find_ward (transfer_run c8_db "P001" "WardA" "WardB").1.wards "WardA" = some fwA
            ∧ find_ward (transfer_run c8_db "P001" "WardA" "WardB").1.wards "WardB" = some twA
            ∧ fwA.has_patient "P001" = !(twA.has_patient "P001") :=
  transfer_target_full_atomic c8_db "P001" "WardA" "WardB" c8_wardA c8_wardB c8_patient
    (by decide) (by decide) (by decide) (by decide) (by decide) (by decide) (by decide)
    (by decide) (by decide) (by decide)
